import Mathlib

/-!
Verification development for the VRAM resource manager
(`src/vram-system/server/resource_manager.py`).

The Python `ResourceManager` keeps
  * one payload file per resource (`<resource_id>.dat`), modelled as an
    association list `files : List (String × List Nat)` (byte values 0..255);
  * an in-memory metadata dictionary `self.metadata['resources']`, modelled
    as an association list `resources : List (String × ResourceRecord)`
    preserving Python-dict insertion order;
  * the persisted `metadata.json` document, modelled as `ledgerDoc`
    (only its `resources` mapping matters to any claim).

Timestamps (`datetime.now().isoformat()` strings) are modelled as natural
numbers counting seconds since the epoch: ISO strings produced by
`isoformat` compare lexicographically exactly as their instants compare,
so string-keyed sorting in the code is numeric sorting here, and
`datetime.fromisoformat` plus `timedelta.days` is floor division of the
second difference by 86400 (`Int.fdiv`, matching Python's floor semantics).

Filesystem faults (the `try`/`except` blocks) are modelled by explicit
fault arguments.  For reads, removes and ledger persists a `false` flag
means the corresponding `open`/`os.remove`/`json.dump` call raised,
leaving the touched object unchanged (POSIX `unlink` and a failed
`open` are atomic in this sense), and the surrounding `except` clause
runs.  The payload write of `store_resource` is finer-grained: Python's
`open(file_path, 'wb')` truncates the file the moment it succeeds, so a
`WriteOutcome` distinguishes success, a failed `open` (file untouched)
and a failure during `f.write`/close after the truncation, which leaves
the file holding only a prefix of the new bytes.  The SHA-256 digest is
kept abstract: every
theorem is proved for an arbitrary `digest : List Nat → String`, since no
claim depends on properties of SHA-256 itself.

The access log (`log_access`) is write-only and read by no claim, so it
is not part of the state.  Object (`pickle`) payloads are outside every
claim, so `Content` has only the string and bytes constructors the
claims mention.
-/

namespace VRAM

/-- One entry of `self.metadata['resources']` (`store_resource`, lines
101-110 of `resource_manager.py`).  `last_accessed` is optional because
`list_resources` reads it with a bare `.get` and substitutes the epoch
for a missing value; all other fields are read with total defaults and
are kept total here. -/
structure ResourceRecord where
  size : Nat
  hash : String
  category : String
  priority : Int
  created : Nat
  last_accessed : Option Nat
  access_count : Nat
  version : Nat
deriving DecidableEq, Repr

/-- Lookup in a Python dict modelled as an insertion-ordered association
list: the first binding of the key wins. -/
def alookup {α : Type} : List (String × α) → String → Option α
  | [], _ => none
  | (k, v) :: rest, key => if k = key then some v else alookup rest key

/-- Python dict assignment `d[key] = v`: replace the binding in place if
the key is present, otherwise append at the end. -/
def ainsert {α : Type} : List (String × α) → String → α → List (String × α)
  | [], key, v => [(key, v)]
  | (k, w) :: rest, key, v =>
    if k = key then (key, v) :: rest else (k, w) :: ainsert rest key v

/-- Python `del d[key]`.  Dict keys are unique, so removing every binding
of the key coincides with removing the single one. -/
def aerase {α : Type} : List (String × α) → String → List (String × α)
  | [], _ => []
  | (k, w) :: rest, key =>
    if k = key then aerase rest key else (k, w) :: aerase rest key

theorem alookup_ainsert {α : Type} (l : List (String × α)) (key k' : String) (v : α) :
    alookup (ainsert l key v) k' = if key = k' then some v else alookup l k' := by
  induction l with
  | nil => simp [ainsert, alookup]
  | cons p rest ih =>
    obtain ⟨k, w⟩ := p
    by_cases hk : k = key
    · subst hk
      simp only [ainsert, if_pos rfl, alookup]
      by_cases h' : k = k' <;> simp [h', alookup]
    · simp only [ainsert, if_neg hk, alookup]
      by_cases h' : k = k'
      · subst h'
        have : ¬ key = k := fun h => hk h.symm
        simp [this]
      · simp [h', ih]

theorem alookup_aerase {α : Type} (l : List (String × α)) (key k' : String) :
    alookup (aerase l key) k' = if k' = key then none else alookup l k' := by
  induction l with
  | nil => simp [aerase, alookup]
  | cons p rest ih =>
    obtain ⟨k, w⟩ := p
    by_cases hk : k = key
    · subst hk
      by_cases h' : k' = k
      · subst h'
        simp [aerase, ih]
      · have hkk : ¬ k = k' := fun h => h' h.symm
        simp [aerase, alookup, ih, h', hkk]
    · by_cases h' : k = k'
      · subst h'
        simp [aerase, alookup, hk]
      · simp [aerase, alookup, hk, h', ih]

theorem alookup_isSome_of_mem {α : Type} {l : List (String × α)} {k : String} {v : α}
    (h : (k, v) ∈ l) : (alookup l k).isSome := by
  induction l with
  | nil => cases h
  | cons p rest ih =>
    obtain ⟨k', w⟩ := p
    rcases List.mem_cons.mp h with h' | h'
    · cases h'
      simp [alookup]
    · by_cases hk : k' = k <;> simp [alookup, hk, ih h']

/-- The whole state touched by the manager: payload files, the in-memory
metadata mapping, and the persisted copy of that mapping. -/
structure State where
  files : List (String × List Nat)
  resources : List (String × ResourceRecord)
  ledgerDoc : List (String × ResourceRecord)
deriving DecidableEq, Repr

/-- `content` argument of `store_resource`, restricted to the string and
bytes cases the claims are about. -/
inductive Content where
  | str (s : String)
  | bytes (b : List Nat)
deriving DecidableEq, Repr

/-- UTF-8 encoding of a string, byte values as naturals; the same byte
sequence Python's `str.encode('utf-8')` produces. -/
def utf8Bytes (s : String) : List Nat :=
  (s.data.flatMap String.utf8EncodeChar).map (fun b => b.toNat)

/-- `store_resource` lines 87-93: strings are UTF-8 encoded, bytes pass
through. -/
def encodeContent : Content → List Nat
  | .str s => utf8Bytes s
  | .bytes b => b

/-- `_save_metadata` (lines 55-62): writes the current mapping to the
metadata file; an exception is caught and logged, never propagated, so
the only effect of a failed persist is that the on-disk document keeps
its old value.  `persistOk = false` models the `open`/`json.dump` call
raising. -/
def saveMetadata (st : State) (persistOk : Bool) : State :=
  if persistOk then { st with ledgerDoc := st.resources } else st

theorem saveMetadata_files (st : State) (p : Bool) :
    (saveMetadata st p).files = st.files := by
  cases p <;> rfl

theorem saveMetadata_resources (st : State) (p : Bool) :
    (saveMetadata st p).resources = st.resources := by
  cases p <;> rfl

/-- The metadata record installed by `store_resource` (lines 101-110):
size and digest of the freshly written bytes, caller-supplied category
and priority, both timestamps set to now, a zero access count and
version 1. -/
def freshRecord (digest : List Nat → String) (content : Content)
    (category : String) (priority : Int) (now : Nat) : ResourceRecord :=
  { size := (encodeContent content).length
    hash := digest (encodeContent content)
    category := category
    priority := priority
    created := now
    last_accessed := some now
    access_count := 0
    version := 1 }

/-- Outcome of the payload-write step of `store_resource` (lines
96-98): `with open(file_path, 'wb') as f: f.write(data)`.
`success`: everything written.  `openError`: the `open` call itself
raised, the file is untouched.  `writeError n`: `open` succeeded —
truncating the file — and then `f.write` (or the implicit close)
raised after `n` bytes had been flushed, so the file holds the first
`n` bytes of the new data (all of it, when the failure came after the
write). -/
inductive WriteOutcome where
  | success
  | openError
  | writeError (n : Nat)
deriving DecidableEq, Repr

def WriteOutcome.isSuccess : WriteOutcome → Bool
  | .success => true
  | .openError => false
  | .writeError _ => false

/-- `store_resource` (lines 72-118).  On a successful write a brand-new
record is installed and `_save_metadata` runs (swallowing its own
failures); any write failure jumps to the outer `except`, which skips
the metadata update and returns `False` — but a `writeError` has
already left the payload file truncated to a prefix of the new bytes. -/
def store_resource (digest : List Nat → String) (st : State) (rid : String)
    (content : Content) (category : String) (priority : Int) (now : Nat)
    (write : WriteOutcome) (persistOk : Bool) : State × Bool :=
  match write with
  | .success =>
    (saveMetadata
      { st with
        files := ainsert st.files rid (encodeContent content)
        resources := ainsert st.resources rid (freshRecord digest content category priority now) }
      persistOk, true)
  | .openError => (st, false)
  | .writeError n =>
    ({ st with files := ainsert st.files rid ((encodeContent content).take n) }, false)

theorem store_resource_snd (digest : List Nat → String) (st : State) (rid : String)
    (content : Content) (category : String) (priority : Int) (now : Nat)
    (write : WriteOutcome) (persistOk : Bool) :
    (store_resource digest st rid content category priority now write persistOk).2
      = write.isSuccess := by
  cases write <;> rfl

theorem store_resource_success_resources (digest : List Nat → String) (st : State)
    (rid : String) (content : Content) (category : String) (priority : Int)
    (now : Nat) (persistOk : Bool) :
    (store_resource digest st rid content category priority now
        WriteOutcome.success persistOk).1.resources
      = ainsert st.resources rid (freshRecord digest content category priority now) := by
  cases persistOk <;> rfl

theorem store_resource_success_files (digest : List Nat → String) (st : State)
    (rid : String) (content : Content) (category : String) (priority : Int)
    (now : Nat) (persistOk : Bool) :
    (store_resource digest st rid content category priority now
        WriteOutcome.success persistOk).1.files
      = ainsert st.files rid (encodeContent content) := by
  cases persistOk <;> rfl

/-- `get_resource` (lines 120-153).  No record: `None`.  Record with a
missing payload file: the stale record is deleted, the ledger persisted,
`None` returned.  Otherwise the payload is read (`readOk = false` models
the read raising, caught by the `except`, nothing mutated), access
statistics are updated and the ledger persisted. -/
def get_resource (st : State) (rid : String) (now : Nat)
    (readOk persistOk : Bool) : State × Option (List Nat) :=
  match alookup st.resources rid with
  | none => (st, none)
  | some r =>
    match alookup st.files rid with
    | none =>
      (saveMetadata { st with resources := aerase st.resources rid } persistOk, none)
    | some data =>
      if readOk then
        let r' : ResourceRecord :=
          { r with last_accessed := some now, access_count := r.access_count + 1 }
        (saveMetadata { st with resources := ainsert st.resources rid r' } persistOk,
          some data)
      else
        (st, none)

/-- `delete_resource` (lines 155-181).  No record: `False`.  Otherwise
the payload file is removed when present (`removeOk = false` models
`os.remove` raising, caught by the `except`, which leaves file and
record in place and returns `False`); the record is removed and the
ledger persisted. -/
def delete_resource (st : State) (rid : String)
    (removeOk persistOk : Bool) : State × Bool :=
  match alookup st.resources rid with
  | none => (st, false)
  | some _ =>
    match alookup st.files rid with
    | none =>
      (saveMetadata { st with resources := aerase st.resources rid } persistOk, true)
    | some _ =>
      if removeOk then
        (saveMetadata
          { st with
            files := aerase st.files rid
            resources := aerase st.resources rid } persistOk, true)
      else
        (st, false)

/-- One element of the list returned by `list_resources` (lines
206-215). -/
structure ResourceInfo where
  resource_id : String
  size : Nat
  category : String
  priority : Int
  created : Nat
  last_accessed : Option Nat
  access_count : Nat
  version : Nat
deriving DecidableEq, Repr

/-- The summary dictionary `list_resources` builds for one record. -/
def mkInfo (p : String × ResourceRecord) : ResourceInfo :=
  { resource_id := p.1
    size := p.2.size
    category := p.2.category
    priority := p.2.priority
    created := p.2.created
    last_accessed := p.2.last_accessed
    access_count := p.2.access_count
    version := p.2.version }

/-- The two `continue` filters of `list_resources` (lines 200-204),
with Python truthiness spelled out: `if category and ...` skips the
category test when `category` is `None` or the empty string, and
`if max_size and ...` skips the size test when `max_size` is `None` or
`0`. -/
def keepsFilter (category : Option String) (max_size : Option Nat)
    (r : ResourceRecord) : Bool :=
  (match category with
   | none => true
   | some c => if c = "" then true else decide (r.category = c)) &&
  (match max_size with
   | none => true
   | some m => if m = 0 then true else decide (r.size ≤ m))

/-- Sort key of line 219: `x['last_accessed'] or '1970-01-01'`; a missing
timestamp falls back to the epoch. -/
def listKey (x : ResourceInfo) : Nat := x.last_accessed.getD 0

/-- `resources.sort(key=..., reverse=True)` sorts by `listKey`
descending, keeping the original order of equal keys (Python's sort is
stable).  `listDescRel a b` says `a` may come before `b`. -/
def listDescRel (a b : ResourceInfo) : Prop := listKey b ≤ listKey a

instance : DecidableRel listDescRel := fun _ _ => Nat.decLe _ _

instance : IsTotal ResourceInfo listDescRel :=
  ⟨fun a b => Nat.le_total (listKey b) (listKey a)⟩

instance : IsTrans ResourceInfo listDescRel :=
  ⟨fun _ _ _ hab hbc => Nat.le_trans hbc hab⟩

/-- Python list slicing `l[a:b]` with full index resolution: a negative
index counts from the end (`a + len(l)`, clamped below at 0 by
`Int.toNat`), a non-negative one is clamped above at `len(l)` (here by
`take`/`drop` themselves); the result is the elements at resolved
positions `[s, e)`. -/
def pySlice {α : Type} (l : List α) (a b : Int) : List α :=
  let s : Nat := (if a < 0 then a + (l.length : Int) else a).toNat
  let e : Nat := (if b < 0 then b + (l.length : Int) else b).toNat
  (l.take e).drop s

/-- `list_resources` (lines 183-225): filter, build summaries in dict
order, stable-sort by `last_accessed` descending, slice
`resources[start_idx:end_idx]` with `start_idx = (page - 1) * per_page`
and `end_idx = start_idx + per_page`.  `page` and `per_page` are Python
ints, so zero and negative values flow into the slice unchecked;
`pySlice` reproduces Python's resolution of such indices.
`List.insertionSort` is a stable sort, hence produces exactly the
output of Python's stable `list.sort` with `reverse=True` for this
key. -/
def list_resources (st : State) (category : Option String)
    (max_size : Option Nat) (page per_page : Int) : List ResourceInfo :=
  let infos :=
    (st.resources.filter (fun p => keepsFilter category max_size p.2)).map mkInfo
  let sorted := List.insertionSort listDescRel infos
  pySlice sorted ((page - 1) * per_page) ((page - 1) * per_page + per_page)

/-- Total byte size of all records, `sum(meta.get('size', 0) ...)`
(lines 272 and 323). -/
def totalSize (st : State) : Nat :=
  (st.resources.map (fun p => p.2.size)).sum

/-- The parts of `get_usage_stats` (lines 269-297) a claim can mention:
resource count and total size.  The category breakdown, the
most-accessed top 10 and the platform disk-usage query mutate nothing
and are read by no claim, so they are not modelled. -/
structure UsageStats where
  total_resources : Nat
  total_size_bytes : Nat
deriving DecidableEq, Repr

def get_usage_stats (st : State) : UsageStats :=
  { total_resources := st.resources.length
    total_size_bytes := totalSize st }

/-- `(datetime.now() - last_accessed).days` (line 346): `timedelta.days`
floors toward minus infinity, i.e. `Int.fdiv` of the second difference
by 86400. -/
def ageDays (now last : Nat) : Int :=
  Int.fdiv ((now : Int) - (last : Int)) 86400

/-- Line 347: `score = (access_count * 10) + (5 - priority) * 100 -
age_days`, with the missing-timestamp default of line 340 (epoch). -/
def evictionScore (now : Nat) (r : ResourceRecord) : Int :=
  (r.access_count : Int) * 10 + (5 - r.priority) * 100
    - ageDays now (r.last_accessed.getD 0)

/-- One tuple of `resources_to_evaluate` (line 349):
`(resource_id, score, size, priority)`. -/
structure Cand where
  rid : String
  score : Int
  size : Nat
  priority : Int
deriving DecidableEq, Repr

def mkCand (now : Nat) (p : String × ResourceRecord) : Cand :=
  { rid := p.1
    score := evictionScore now p.2
    size := p.2.size
    priority := p.2.priority }

/-- Order of the sort on line 352, `key=lambda x: (x[3], x[1])`:
ascending lexicographically by raw priority value, then score. -/
def candRel (a b : Cand) : Prop :=
  a.priority < b.priority ∨ (a.priority = b.priority ∧ a.score ≤ b.score)

instance : DecidableRel candRel := fun a b => by
  unfold candRel
  infer_instance

instance : IsTotal Cand candRel := by
  refine ⟨fun a b => ?_⟩
  unfold candRel
  rcases lt_trichotomy a.priority b.priority with h | h | h
  · exact Or.inl (Or.inl h)
  · rcases le_total a.score b.score with hs | hs
    · exact Or.inl (Or.inr ⟨h, hs⟩)
    · exact Or.inr (Or.inr ⟨h.symm, hs⟩)
  · exact Or.inr (Or.inl h)

instance : IsTrans Cand candRel := by
  refine ⟨fun a b c hab hbc => ?_⟩
  unfold candRel at hab hbc ⊢
  rcases hab with h1 | ⟨h1, h1'⟩ <;> rcases hbc with h2 | ⟨h2, h2'⟩
  · exact Or.inl (h1.trans h2)
  · exact Or.inl (h2 ▸ h1)
  · exact Or.inl (h1 ▸ h2)
  · exact Or.inr ⟨h1.trans h2, h1'.trans h2'⟩

/-- Lines 337-352: every record becomes a candidate tuple, then the list
is stable-sorted by `(priority, score)` ascending. -/
def sortedCandidates (now : Nat) (st : State) : List Cand :=
  List.insertionSort candRel (st.resources.map (mkCand now))

/-- One element of the `deleted_resources` report list (lines 366-371). -/
structure DeletedEntry where
  rid : String
  size : Nat
  priority : Int
  score : Int
deriving DecidableEq, Repr

/-- The `action` field of the dictionary `optimize_storage` returns. -/
inductive OptAction where
  | no_optimization_needed
  | optimization_completed
  | optimization_failed
deriving DecidableEq, Repr

/-- The report `optimize_storage` returns (`final_size_bytes` is
`current_size - freed_space`, derivable, and the MB figures are
rounded copies, so they are not repeated here). -/
structure OptReport where
  action : OptAction
  deleted_resources : List DeletedEntry
  freed_space : Nat
deriving DecidableEq, Repr

/-- Result of the eviction loop: final state, entries deleted, bytes
freed, and `ok = false` when the loop raised `ZeroDivisionError`
(protection check `(current_size - freed_space) / max_size` with a zero
budget), which the outer `except` turns into an `optimization_failed`
report while keeping all deletions already performed. -/
structure LoopOut where
  st : State
  deleted : List DeletedEntry
  freed : Nat
  ok : Bool
deriving DecidableEq, Repr

/-- The eviction loop (lines 354-372).  Per candidate, in sorted order:
break once `current_size - freed_space ≤ budget`; for a priority-1
candidate evaluate the protection ratio (raising on a zero budget) and
skip while it is below 1.5 — `(cs - fs) / budget < 1.5` over the
integers is `2 * (cs - fs) < 3 * budget`; otherwise delete through
`delete_resource`, counting the entry and its bytes only on success.
`faults` supplies one `removeOk` flag per `delete_resource` call
(missing entries mean no fault), modelling the loop's tolerance of
individual deletion failures. -/
def evictLoop (budget currentSize : Nat) :
    List Cand → State → Nat → List Bool → LoopOut
  | [], st, freed, _ => ⟨st, [], freed, true⟩
  | c :: rest, st, freed, faults =>
    if currentSize - freed ≤ budget then ⟨st, [], freed, true⟩
    else if c.priority = 1 ∧ budget = 0 then ⟨st, [], freed, false⟩
    else if c.priority = 1 ∧ 2 * (currentSize - freed) < 3 * budget then
      evictLoop budget currentSize rest st freed faults
    else
      match delete_resource st c.rid (faults.headD true) true with
      | (st1, true) =>
        let out := evictLoop budget currentSize rest st1 (freed + c.size) faults.tail
        ⟨out.st, ⟨c.rid, c.size, c.priority, c.score⟩ :: out.deleted, out.freed, out.ok⟩
      | (st1, false) =>
        evictLoop budget currentSize rest st1 freed faults.tail

/-- `optimize_storage` (lines 312-385).  A `None` budget defaults to
100 MiB; a total size within budget is a no-op; otherwise the sorted
candidates are fed to the eviction loop and a completed (or, after a
mid-loop error, failed) report is produced. -/
def optimize_storage (st : State) (max_size : Option Nat) (now : Nat)
    (faults : List Bool) : State × OptReport :=
  let currentSize := totalSize st
  let budget := max_size.getD (100 * 1024 * 1024)
  if currentSize ≤ budget then
    (st, { action := .no_optimization_needed, deleted_resources := [], freed_space := 0 })
  else
    let out := evictLoop budget currentSize (sortedCandidates now st) st 0 faults
    if out.ok then
      (out.st,
        { action := .optimization_completed
          deleted_resources := out.deleted
          freed_space := out.freed })
    else
      (out.st, { action := .optimization_failed, deleted_resources := [], freed_space := 0 })

/-!  Spec-side definitions for the refinement claim C9.  `listSpecClaim`
follows the claim's words verbatim: a given category filters by exact
match, a given `max_size` filters by `size ≤ max_size`, the result is
ordered by `last_accessed` descending (epoch last) and restricted to
the elements at positions `[(page-1)*per_page, page*per_page)` —
positions outside the sequence (negative ones included) contribute
nothing, so out-of-range pages yield the empty sequence.
`listSpecAmended` is the same with the filter clauses weakened exactly
as the counterexample forces: an empty-string category and a zero
`max_size` apply no filter. -/

def specKeepsClaim (category : Option String) (max_size : Option Nat)
    (r : ResourceRecord) : Bool :=
  (match category with
   | none => true
   | some c => decide (r.category = c)) &&
  (match max_size with
   | none => true
   | some m => decide (r.size ≤ m))

def listSpecClaim (st : State) (category : Option String)
    (max_size : Option Nat) (page per_page : Int) : List ResourceInfo :=
  let infos :=
    (st.resources.filter (fun p => specKeepsClaim category max_size p.2)).map mkInfo
  let sorted := List.insertionSort listDescRel infos
  (sorted.take (page * per_page).toNat).drop (((page - 1) * per_page)).toNat

def specKeepsAmended (category : Option String) (max_size : Option Nat)
    (r : ResourceRecord) : Bool :=
  (match category with
   | none => true
   | some c => decide (c = "") || decide (r.category = c)) &&
  (match max_size with
   | none => true
   | some m => decide (m = 0) || decide (r.size ≤ m))

def listSpecAmended (st : State) (category : Option String)
    (max_size : Option Nat) (page per_page : Int) : List ResourceInfo :=
  let infos :=
    (st.resources.filter (fun p => specKeepsAmended category max_size p.2)).map mkInfo
  let sorted := List.insertionSort listDescRel infos
  (sorted.take (page * per_page).toNat).drop (((page - 1) * per_page)).toNat

/-- The §3 invariant of the spec: a record exists exactly when its
payload file does, and the recorded hash is the digest of the bytes
currently on disk. -/
def StateInv (digest : List Nat → String) (st : State) : Prop :=
  (∀ rid, (alookup st.resources rid).isSome ↔ (alookup st.files rid).isSome) ∧
  (∀ rid r data, alookup st.resources rid = some r →
    alookup st.files rid = some data → r.hash = digest data)

/-- The state written by a successful `get_resource` access update
satisfies the invariant, provided the replacement record keeps a hash
matching the file's bytes. -/
theorem inv_touch (digest : List Nat → String) (st : State) (rid : String)
    (r' : ResourceRecord) (pk : Bool) (h : StateInv digest st)
    (hhash' : ∀ data, alookup st.files rid = some data → r'.hash = digest data)
    (hfile : (alookup st.files rid).isSome) :
    StateInv digest
      (saveMetadata { st with resources := ainsert st.resources rid r' } pk) := by
  obtain ⟨hex, hhash⟩ := h
  constructor
  · intro k
    simp only [saveMetadata_resources, saveMetadata_files, alookup_ainsert]
    by_cases hk : rid = k
    · subst hk
      simpa using hfile
    · simp [hk, hex k]
  · intro k r data hr hf
    rw [saveMetadata_resources, alookup_ainsert] at hr
    rw [saveMetadata_files] at hf
    by_cases hk : rid = k
    · rw [if_pos hk] at hr
      cases hr
      exact hhash' data (hk ▸ hf)
    · rw [if_neg hk] at hr
      exact hhash k r data hr hf

/-- Erasing a resource from both the file store and the ledger keeps the
invariant. -/
theorem inv_eraseBoth (digest : List Nat → String) (st : State) (rid : String)
    (pk : Bool) (h : StateInv digest st) :
    StateInv digest
      (saveMetadata
        { st with files := aerase st.files rid, resources := aerase st.resources rid }
        pk) := by
  obtain ⟨hex, hhash⟩ := h
  constructor
  · intro k
    simp only [saveMetadata_resources, saveMetadata_files, alookup_aerase]
    by_cases hk : k = rid
    · simp [hk]
    · simp [hk, hex k]
  · intro k r data hr hf
    rw [saveMetadata_resources, alookup_aerase] at hr
    rw [saveMetadata_files, alookup_aerase] at hf
    by_cases hk : k = rid
    · rw [if_pos hk] at hr
      exact Option.noConfusion hr
    · rw [if_neg hk] at hr hf
      exact hhash k r data hr hf

/-- `store_resource` preserves the invariant when its write step
succeeds or fails before the file was touched.  A `writeError` outcome
is excluded: it truncates the payload file without updating the ledger
and can break the invariant (see the claim C8 counterexample). -/
theorem inv_store (digest : List Nat → String) (st : State) (rid : String)
    (content : Content) (category : String) (priority : Int) (now : Nat)
    (write : WriteOutcome) (persistOk : Bool)
    (hw : write = WriteOutcome.success ∨ write = WriteOutcome.openError)
    (h : StateInv digest st) :
    StateInv digest
      (store_resource digest st rid content category priority now write persistOk).1 := by
  rcases hw with rfl | rfl
  · obtain ⟨hex, hhash⟩ := h
    constructor
    · intro k
      rw [store_resource_success_resources, store_resource_success_files,
        alookup_ainsert, alookup_ainsert]
      by_cases hk : rid = k
      · simp [hk]
      · simp [hk, hex k]
    · intro k r data hr hf
      rw [store_resource_success_resources, alookup_ainsert] at hr
      rw [store_resource_success_files, alookup_ainsert] at hf
      by_cases hk : rid = k
      · rw [if_pos hk] at hr hf
        cases hr
        cases hf
        rfl
      · rw [if_neg hk] at hr hf
        exact hhash k r data hr hf
  · exact h

theorem inv_get (digest : List Nat → String) (st : State) (rid : String) (now : Nat)
    (readOk persistOk : Bool) (h : StateInv digest st) :
    StateInv digest (get_resource st rid now readOk persistOk).1 := by
  have hex := h.1
  have hhash := h.2
  unfold get_resource
  cases hr : alookup st.resources rid with
  | none => exact h
  | some r =>
    cases hf : alookup st.files rid with
    | none =>
      exfalso
      have h1 : (alookup st.resources rid).isSome := by simp [hr]
      have h2 := (hex rid).mp h1
      rw [hf] at h2
      exact Bool.noConfusion h2
    | some data =>
      cases readOk with
      | false => exact h
      | true =>
        exact inv_touch digest st rid _ persistOk h
          (fun data' hd => by
            rw [hf] at hd
            cases hd
            exact hhash rid r data hr hf)
          (by simp [hf])

theorem inv_delete (digest : List Nat → String) (st : State) (rid : String)
    (removeOk persistOk : Bool) (h : StateInv digest st) :
    StateInv digest (delete_resource st rid removeOk persistOk).1 := by
  have hex := h.1
  unfold delete_resource
  cases hr : alookup st.resources rid with
  | none => exact h
  | some r =>
    cases hf : alookup st.files rid with
    | none =>
      exfalso
      have h1 : (alookup st.resources rid).isSome := by simp [hr]
      have h2 := (hex rid).mp h1
      rw [hf] at h2
      exact Bool.noConfusion h2
    | some data =>
      cases removeOk with
      | false => exact h
      | true => exact inv_eraseBoth digest st rid persistOk h

theorem inv_evictLoop (digest : List Nat → String) (budget currentSize : Nat)
    (cands : List Cand) :
    ∀ (st : State) (freed : Nat) (faults : List Bool), StateInv digest st →
      StateInv digest (evictLoop budget currentSize cands st freed faults).st := by
  induction cands with
  | nil =>
    intro st freed faults h
    exact h
  | cons c rest ih =>
    intro st freed faults h
    rw [evictLoop]
    by_cases h1 : currentSize - freed ≤ budget
    · rw [if_pos h1]
      exact h
    · rw [if_neg h1]
      by_cases h2 : c.priority = 1 ∧ budget = 0
      · rw [if_pos h2]
        exact h
      · rw [if_neg h2]
        by_cases h3 : c.priority = 1 ∧ 2 * (currentSize - freed) < 3 * budget
        · rw [if_pos h3]
          exact ih st freed faults h
        · rw [if_neg h3]
          have hdel := inv_delete digest st c.rid (faults.headD true) true h
          rcases hd : delete_resource st c.rid (faults.headD true) true with ⟨st1, ok1⟩
          rw [hd] at hdel
          cases ok1 with
          | false => exact ih st1 freed faults.tail hdel
          | true => exact ih st1 (freed + c.size) faults.tail hdel

theorem inv_optimize (digest : List Nat → String) (st : State)
    (max_size : Option Nat) (now : Nat) (faults : List Bool)
    (h : StateInv digest st) :
    StateInv digest (optimize_storage st max_size now faults).1 := by
  simp only [optimize_storage]
  by_cases hle : totalSize st ≤ max_size.getD (100 * 1024 * 1024)
  · rw [if_pos hle]
    exact h
  · rw [if_neg hle]
    have hloop := inv_evictLoop digest (max_size.getD (100 * 1024 * 1024)) (totalSize st)
      (sortedCandidates now st) st 0 faults h
    by_cases hok : (evictLoop (max_size.getD (100 * 1024 * 1024)) (totalSize st)
        (sortedCandidates now st) st 0 faults).ok = true
    · rw [if_pos hok]
      exact hloop
    · rw [if_neg hok]
      exact hloop

/-!  Concrete instantiations used by witnesses and counterexamples.  The
theorems themselves are proved for an arbitrary digest function. -/

def constDigest : List Nat → String := fun _ => ""

def emptyState : State := ⟨[], [], []⟩

theorem stateInv_empty (digest : List Nat → String) : StateInv digest emptyState :=
  ⟨fun _ => Iff.rfl, fun _ _ _ hr _ => Option.noConfusion hr⟩

/-- Branch equation: `get_resource` on an id with no record returns the
state unchanged and `None`. -/
theorem get_resource_none {st : State} {rid : String} {now : Nat}
    {readOk persistOk : Bool} (h : alookup st.resources rid = none) :
    get_resource st rid now readOk persistOk = (st, none) := by
  unfold get_resource
  rw [h]

/-- Branch equation: `delete_resource` on an id with no record returns
the state unchanged and `False`. -/
theorem delete_resource_none {st : State} {rid : String}
    {removeOk persistOk : Bool} (h : alookup st.resources rid = none) :
    delete_resource st rid removeOk persistOk = (st, false) := by
  unfold delete_resource
  rw [h]

/-- A summary appearing in a `list_resources` result always corresponds
to a key present in the ledger. -/
theorem mem_list_resources_isSome {st : State} {category : Option String}
    {max_size : Option Nat} {page per_page : Int} {x : ResourceInfo}
    (hx : x ∈ list_resources st category max_size page per_page) :
    (alookup st.resources x.resource_id).isSome := by
  simp only [list_resources, pySlice] at hx
  have h1 : x ∈ List.insertionSort listDescRel
      ((st.resources.filter (fun p => keepsFilter category max_size p.2)).map mkInfo) :=
    List.take_subset _ _ (List.drop_subset _ _ hx)
  have h2 : x ∈ (st.resources.filter (fun p => keepsFilter category max_size p.2)).map mkInfo :=
    ((List.perm_insertionSort _ _).mem_iff).mp h1
  obtain ⟨p, hp, hmk⟩ := List.mem_map.mp h2
  have hpmem : p ∈ st.resources := List.mem_of_mem_filter hp
  obtain ⟨k, r⟩ := p
  have hid : x.resource_id = k := by rw [← hmk]; rfl
  rw [hid]
  exact alookup_isSome_of_mem hpmem

/-- Claim C3, counterexample to the claim as stated: the claim predicts
a failure result whenever the ledger-persist step fails, but
`_save_metadata` catches and logs its own exception (lines 55-62), so a
store whose payload write succeeded and whose persist failed still
returns `True`. -/
theorem c3_persist_failure_still_success :
    (store_resource constDigest emptyState "a" (Content.str "x") "general" 1 0
      WriteOutcome.success false).2 = true := rfl

/-- Claim C3 (amended): `store` returns failure exactly when the
payload-write step fails; a failure of the ledger-persist step is
swallowed inside the persist helper and `store` still returns success. -/
theorem c3_store_success_iff_write_ok (digest : List Nat → String) (st : State)
    (rid : String) (content : Content) (category : String) (priority : Int)
    (now : Nat) (write : WriteOutcome) (persistOk : Bool) :
    (store_resource digest st rid content category priority now write persistOk).2
      = write.isSuccess :=
  store_resource_snd digest st rid content category priority now write persistOk

/-- Claim C4: `store(id, X)` immediately followed by `get(id)` succeeds
and returns exactly the UTF-8 encoding of `X` when `X` is a string, and
`X` itself when `X` is bytes. -/
theorem c4_store_get_round_trip (digest : List Nat → String) (st : State)
    (rid : String) (content : Content) (category : String) (priority : Int)
    (now now' : Nat) (p1 p2 : Bool) :
    (store_resource digest st rid content category priority now
      WriteOutcome.success p1).2 = true ∧
    (get_resource (store_resource digest st rid content category priority now
        WriteOutcome.success p1).1 rid now' true p2).2 =
      some (match content with
            | Content.str s => utf8Bytes s
            | Content.bytes b => b) := by
  refine ⟨store_resource_snd digest st rid content category priority now
    WriteOutcome.success p1, ?_⟩
  have hres : alookup
      ((store_resource digest st rid content category priority now
        WriteOutcome.success p1).1).resources rid
      = some (freshRecord digest content category priority now) := by
    rw [store_resource_success_resources, alookup_ainsert, if_pos rfl]
  have hfil : alookup
      ((store_resource digest st rid content category priority now
        WriteOutcome.success p1).1).files rid
      = some (encodeContent content) := by
    rw [store_resource_success_files, alookup_ainsert, if_pos rfl]
  unfold get_resource
  rw [hres, hfil]
  cases content <;> rfl

/-- Claim C5: every successful `store` installs a fresh record for the
id — size and hash recomputed from the new bytes, both timestamps set to
now, access count 0 and version 1 — regardless of any earlier record. -/
theorem c5_store_installs_fresh_record (digest : List Nat → String) (st : State)
    (rid : String) (content : Content) (category : String) (priority : Int)
    (now : Nat) (write : WriteOutcome) (persistOk : Bool)
    (h : (store_resource digest st rid content category priority now write persistOk).2
      = true) :
    alookup
      ((store_resource digest st rid content category priority now write persistOk).1).resources
      rid
      = some { size := (encodeContent content).length
               hash := digest (encodeContent content)
               category := category
               priority := priority
               created := now
               last_accessed := some now
               access_count := 0
               version := 1 } := by
  cases write with
  | success =>
    rw [store_resource_success_resources, alookup_ainsert, if_pos rfl]
    rfl
  | openError =>
    rw [store_resource_snd] at h
    exact Bool.noConfusion h
  | writeError n =>
    rw [store_resource_snd] at h
    exact Bool.noConfusion h

theorem c5_witness :
    (store_resource constDigest emptyState "a" (Content.bytes [1, 2]) "c" 2 7
      WriteOutcome.success true).2 = true ∧
    alookup
      ((store_resource constDigest emptyState "a" (Content.bytes [1, 2]) "c" 2 7
        WriteOutcome.success true).1).resources "a"
      = some { size := (encodeContent (Content.bytes [1, 2])).length
               hash := constDigest (encodeContent (Content.bytes [1, 2]))
               category := "c"
               priority := 2
               created := 7
               last_accessed := some 7
               access_count := 0
               version := 1 } :=
  ⟨by decide,
   c5_store_installs_fresh_record constDigest emptyState "a" (Content.bytes [1, 2])
     "c" 2 7 WriteOutcome.success true (by decide)⟩

/-- Claim C6: `get` returns absent when no record exists, and when a
record exists without its payload file it returns absent, purges the
stale record, and a subsequent `list` excludes the id. -/
theorem c6_get_absent_and_self_heal (st : State) (rid : String) (now : Nat)
    (readOk persistOk : Bool) :
    (alookup st.resources rid = none →
      get_resource st rid now readOk persistOk = (st, none)) ∧
    (∀ r : ResourceRecord, alookup st.resources rid = some r →
      alookup st.files rid = none →
      (get_resource st rid now readOk persistOk).2 = none ∧
      alookup ((get_resource st rid now readOk persistOk).1).resources rid = none ∧
      ∀ (category : Option String) (max_size : Option Nat) (page per_page : Int),
        rid ∉ (list_resources ((get_resource st rid now readOk persistOk).1)
                category max_size page per_page).map (fun x => x.resource_id)) := by
  constructor
  · intro h
    exact get_resource_none h
  · intro r hr hf
    have hget : get_resource st rid now readOk persistOk
        = (saveMetadata { st with resources := aerase st.resources rid } persistOk, none) := by
      unfold get_resource
      rw [hr, hf]
    have hres : alookup ((get_resource st rid now readOk persistOk).1).resources rid
        = none := by
      simp only [hget, saveMetadata_resources, alookup_aerase]
      simp
    refine ⟨by rw [hget], hres, ?_⟩
    intro category max_size page per_page hmem
    obtain ⟨x, hx, hxid⟩ := List.mem_map.mp hmem
    have hsome := mem_list_resources_isSome hx
    rw [hxid, hres] at hsome
    exact Bool.noConfusion hsome

theorem c6_witness :
    (alookup (State.mk [] [("a", ResourceRecord.mk 1 "" "g" 3 0 (some 0) 0 1)] []).resources "a"
      = some (ResourceRecord.mk 1 "" "g" 3 0 (some 0) 0 1)) ∧
    (alookup (State.mk [] [("a", ResourceRecord.mk 1 "" "g" 3 0 (some 0) 0 1)] []).files "a"
      = none) ∧
    ((get_resource (State.mk [] [("a", ResourceRecord.mk 1 "" "g" 3 0 (some 0) 0 1)] [])
        "a" 5 true true).2 = none ∧
      alookup ((get_resource (State.mk [] [("a", ResourceRecord.mk 1 "" "g" 3 0 (some 0) 0 1)] [])
        "a" 5 true true).1).resources "a" = none ∧
      ∀ (category : Option String) (max_size : Option Nat) (page per_page : Int),
        "a" ∉ (list_resources ((get_resource
                (State.mk [] [("a", ResourceRecord.mk 1 "" "g" 3 0 (some 0) 0 1)] [])
                "a" 5 true true).1)
              category max_size page per_page).map (fun x => x.resource_id)) :=
  ⟨by decide, by decide,
   (c6_get_absent_and_self_heal
      (State.mk [] [("a", ResourceRecord.mk 1 "" "g" 3 0 (some 0) 0 1)] []) "a" 5
      true true).2
    (ResourceRecord.mk 1 "" "g" 3 0 (some 0) 0 1) (by decide) (by decide)⟩

/-- Claim C7: with the filesystem healthy, `delete` fails exactly when
no record exists; deleting an existing record removes payload file and
record (tolerating an already-missing file) and succeeds, after which
`get` returns absent and a second `delete` fails. -/
theorem c7_delete_semantics (st : State) (rid : String) (now : Nat)
    (persistOk p2 p3 readOk : Bool) :
    ((delete_resource st rid true persistOk).2 = false ↔
      alookup st.resources rid = none) ∧
    (∀ r : ResourceRecord, alookup st.resources rid = some r →
      (delete_resource st rid true persistOk).2 = true ∧
      alookup ((delete_resource st rid true persistOk).1).files rid = none ∧
      alookup ((delete_resource st rid true persistOk).1).resources rid = none ∧
      (get_resource (delete_resource st rid true persistOk).1 rid now readOk p2).2
        = none ∧
      (delete_resource (delete_resource st rid true persistOk).1 rid true p3).2
        = false) := by
  cases hr : alookup st.resources rid with
  | none =>
    have hd : delete_resource st rid true persistOk = (st, false) := by
      unfold delete_resource
      rw [hr]
    constructor
    · rw [hd]
      simp
    · intro r hr'
      exact Option.noConfusion hr'
  | some r =>
    cases hf : alookup st.files rid with
    | none =>
      have hd : delete_resource st rid true persistOk
          = (saveMetadata { st with resources := aerase st.resources rid } persistOk,
             true) := by
        unfold delete_resource
        rw [hr, hf]
      have hres : alookup ((delete_resource st rid true persistOk).1).resources rid
          = none := by
        simp only [hd, saveMetadata_resources, alookup_aerase]
        simp
      have hfil : alookup ((delete_resource st rid true persistOk).1).files rid
          = none := by
        simp only [hd, saveMetadata_files]
        exact hf
      refine ⟨?_, ?_⟩
      · rw [hd]
        simp [hr]
      · intro r' _
        refine ⟨by rw [hd], hfil, hres, ?_, ?_⟩
        · rw [get_resource_none hres]
        · rw [delete_resource_none hres]
    | some data =>
      have hd : delete_resource st rid true persistOk
          = (saveMetadata
              { st with
                files := aerase st.files rid
                resources := aerase st.resources rid } persistOk, true) := by
        unfold delete_resource
        rw [hr, hf]
        rfl
      have hres : alookup ((delete_resource st rid true persistOk).1).resources rid
          = none := by
        simp only [hd, saveMetadata_resources, alookup_aerase]
        simp
      have hfil : alookup ((delete_resource st rid true persistOk).1).files rid
          = none := by
        simp only [hd, saveMetadata_files, alookup_aerase]
        simp
      refine ⟨?_, ?_⟩
      · rw [hd]
        simp [hr]
      · intro r' _
        refine ⟨by rw [hd], hfil, hres, ?_, ?_⟩
        · rw [get_resource_none hres]
        · rw [delete_resource_none hres]

theorem c7_witness :
    (alookup (State.mk [("a", [9])] [("a", ResourceRecord.mk 1 "" "g" 3 0 (some 0) 0 1)] []).resources "a"
      = some (ResourceRecord.mk 1 "" "g" 3 0 (some 0) 0 1)) ∧
    ((delete_resource (State.mk [("a", [9])] [("a", ResourceRecord.mk 1 "" "g" 3 0 (some 0) 0 1)] [])
        "a" true true).2 = true ∧
      alookup ((delete_resource (State.mk [("a", [9])] [("a", ResourceRecord.mk 1 "" "g" 3 0 (some 0) 0 1)] [])
        "a" true true).1).files "a" = none ∧
      alookup ((delete_resource (State.mk [("a", [9])] [("a", ResourceRecord.mk 1 "" "g" 3 0 (some 0) 0 1)] [])
        "a" true true).1).resources "a" = none ∧
      (get_resource (delete_resource (State.mk [("a", [9])] [("a", ResourceRecord.mk 1 "" "g" 3 0 (some 0) 0 1)] [])
        "a" true true).1 "a" 5 true true).2 = none ∧
      (delete_resource (delete_resource (State.mk [("a", [9])] [("a", ResourceRecord.mk 1 "" "g" 3 0 (some 0) 0 1)] [])
        "a" true true).1 "a" true true).2 = false) :=
  ⟨by decide,
   (c7_delete_semantics
      (State.mk [("a", [9])] [("a", ResourceRecord.mk 1 "" "g" 3 0 (some 0) 0 1)] [])
      "a" 5 true true true true).2
    (ResourceRecord.mk 1 "" "g" 3 0 (some 0) 0 1) (by decide)⟩

/-- Claim C8, counterexample to the claim as stated: from the
invariant-satisfying empty state, a `store` whose payload write fails
after `open('wb')` truncated the file (here: zero bytes flushed before
the error) leaves a payload file on disk with no record in the ledger,
so the record-iff-file invariant does not survive the operation.  (On
an overwrite the same path leaves a stale record whose hash no longer
matches the truncated bytes.) -/
theorem c8_write_fault_breaks_invariant :
    StateInv constDigest emptyState ∧
    ¬ StateInv constDigest
        (store_resource constDigest emptyState "a" (Content.bytes [1, 2]) "g" 1 0
          (WriteOutcome.writeError 0) true).1 := by
  refine ⟨stateInv_empty constDigest, fun h => ?_⟩
  have hx := h.1 "a"
  simp [store_resource, emptyState, ainsert, alookup] at hx

/-- Claim C8 (amended): every state-mutating operation preserves the §3
invariant (record exists iff payload file exists, and the recorded hash
is the digest of the stored bytes), except that `store` preserves it
only when its payload-write step succeeds or fails before touching the
file — a write failure after `open` truncated the file can leave a
mismatched file and ledger.  `get`, `delete` and `optimize` preserve
the invariant under every modelled fault outcome; `list_resources` and
`get_usage_stats` return values without touching the state. -/
theorem c8_operations_preserve_invariant (digest : List Nat → String) (st : State)
    (rid1 rid2 rid3 : String) (content : Content) (category : String)
    (priority : Int) (now1 now2 now3 : Nat) (write : WriteOutcome)
    (persistOk1 readOk persistOk2 removeOk persistOk3 : Bool)
    (max_size : Option Nat) (faults : List Bool)
    (h : StateInv digest st)
    (hw : write = WriteOutcome.success ∨ write = WriteOutcome.openError) :
    StateInv digest
      (store_resource digest st rid1 content category priority now1 write persistOk1).1 ∧
    StateInv digest (get_resource st rid2 now2 readOk persistOk2).1 ∧
    StateInv digest (delete_resource st rid3 removeOk persistOk3).1 ∧
    StateInv digest (optimize_storage st max_size now3 faults).1 :=
  ⟨inv_store digest st rid1 content category priority now1 write persistOk1 hw h,
   inv_get digest st rid2 now2 readOk persistOk2 h,
   inv_delete digest st rid3 removeOk persistOk3 h,
   inv_optimize digest st max_size now3 faults h⟩

theorem c8_witness :
    StateInv constDigest emptyState ∧
    (StateInv constDigest
      (store_resource constDigest emptyState "a" (Content.bytes [1]) "g" 1 3
        WriteOutcome.success true).1 ∧
     StateInv constDigest (get_resource emptyState "b" 4 true true).1 ∧
     StateInv constDigest (delete_resource emptyState "c" true true).1 ∧
     StateInv constDigest (optimize_storage emptyState none 5 []).1) :=
  ⟨stateInv_empty constDigest,
   c8_operations_preserve_invariant constDigest emptyState "a" "b" "c"
     (Content.bytes [1]) "g" 1 3 4 5 WriteOutcome.success true true true true true none []
     (stateInv_empty constDigest) (Or.inl rfl)⟩

/-- Conclusion of claim C1, parameterised over one `optimize`
invocation: the sorted candidate list is a permutation of the whole
ledger mapped to candidate tuples; each candidate's score is exactly
`access_count*10 + (5 - priority)*100 - age_in_days` with `age_in_days`
the floor of whole elapsed days; the processed list is sorted by
`(raw priority, score)` ascending — in particular priorities are
non-decreasing along it, so priority-1 records come first — and
`optimize_storage` feeds exactly this list to the eviction loop. -/
def C1Concl (st : State) (max_size : Option Nat) (now : Nat)
    (faults : List Bool) : Prop :=
  List.Perm (sortedCandidates now st) (st.resources.map (mkCand now)) ∧
  (∀ p ∈ st.resources, (mkCand now p).score =
      (p.2.access_count : Int) * 10 + (5 - p.2.priority) * 100
        - Int.fdiv ((now : Int) - ((p.2.last_accessed.getD 0 : Nat) : Int)) 86400) ∧
  List.Sorted candRel (sortedCandidates now st) ∧
  List.Pairwise (fun a b => a.priority ≤ b.priority) (sortedCandidates now st) ∧
  optimize_storage st max_size now faults =
    (let out := evictLoop (max_size.getD (100 * 1024 * 1024)) (totalSize st)
        (sortedCandidates now st) st 0 faults
     if out.ok then
       (out.st, { action := OptAction.optimization_completed
                  deleted_resources := out.deleted
                  freed_space := out.freed })
     else
       (out.st, { action := OptAction.optimization_failed
                  deleted_resources := []
                  freed_space := 0 }))

/-- Claim C1: for every invocation of optimize whose current total size
exceeds the budget, every stored record becomes an eviction candidate
with the documented score, and candidates are processed in ascending
`(raw priority, score)` order, priority-1 records first. -/
theorem c1_candidates_scored_and_ordered (st : State) (max_size : Option Nat)
    (now : Nat) (faults : List Bool)
    (h : max_size.getD (100 * 1024 * 1024) < totalSize st) :
    C1Concl st max_size now faults := by
  refine ⟨List.perm_insertionSort candRel _, fun p _ => rfl,
    List.sorted_insertionSort candRel _, ?_, ?_⟩
  · exact List.Pairwise.imp
      (fun hab => hab.elim (fun hlt => le_of_lt hlt) (fun heq => le_of_eq heq.1))
      (List.sorted_insertionSort candRel _)
  · simp only [optimize_storage]
    rw [if_neg (not_le.mpr h)]

theorem c1_witness :
    (some 0).getD (100 * 1024 * 1024)
      < totalSize (State.mk [("a", [0])] [("a", ResourceRecord.mk 1 "" "g" 4 0 (some 0) 0 1)] []) ∧
    C1Concl (State.mk [("a", [0])] [("a", ResourceRecord.mk 1 "" "g" 4 0 (some 0) 0 1)] [])
      (some 0) 5 [] :=
  ⟨by decide,
   c1_candidates_scored_and_ordered
     (State.mk [("a", [0])] [("a", ResourceRecord.mk 1 "" "g" 4 0 (some 0) 0 1)] [])
     (some 0) 5 [] (by decide)⟩

/-- Bytes freed by the first `i` entries of a deleted-resources report:
the `freed_space` accumulator's value at the moment entry `i` was
considered. -/
def freedBefore (ds : List DeletedEntry) (i : Nat) : Nat :=
  ((ds.take i).map (fun d => d.size)).sum

theorem freedBefore_zero (ds : List DeletedEntry) : freedBefore ds 0 = 0 := rfl

theorem freedBefore_cons (e : DeletedEntry) (ds : List DeletedEntry) (i : Nat) :
    freedBefore (e :: ds) (i + 1) = e.size + freedBefore ds i := by
  simp [freedBefore, List.take_succ_cons]

/-- Any priority-1 entry the eviction loop deletes was deleted at a
moment when the remaining overage was at least 1.5 times the budget:
`3 * budget ≤ 2 * (currentSize - freed_at_that_moment)`. -/
theorem evictLoop_priority1_ratio (budget currentSize : Nat) (cands : List Cand) :
    ∀ (st : State) (freed : Nat) (faults : List Bool) (i : Nat) (e : DeletedEntry),
      (evictLoop budget currentSize cands st freed faults).deleted[i]? = some e →
      e.priority = 1 →
      3 * budget ≤ 2 * (currentSize -
        (freed + freedBefore (evictLoop budget currentSize cands st freed faults).deleted i)) := by
  induction cands with
  | nil =>
    intro st freed faults i e he
    exact absurd he (by simp [evictLoop])
  | cons c rest ih =>
    intro st freed faults
    rw [evictLoop]
    by_cases h1 : currentSize - freed ≤ budget
    · rw [if_pos h1]
      intro i e he
      exact absurd he (by simp)
    · rw [if_neg h1]
      by_cases h2 : c.priority = 1 ∧ budget = 0
      · rw [if_pos h2]
        intro i e he
        exact absurd he (by simp)
      · rw [if_neg h2]
        by_cases h3 : c.priority = 1 ∧ 2 * (currentSize - freed) < 3 * budget
        · rw [if_pos h3]
          exact ih st freed faults
        · rw [if_neg h3]
          rcases hd : delete_resource st c.rid (faults.headD true) true with ⟨st1, ok1⟩
          cases ok1 with
          | false => exact ih st1 freed faults.tail
          | true =>
            intro i e he hp
            cases i with
            | zero =>
              have he0 : (DeletedEntry.mk c.rid c.size c.priority c.score ::
                  (evictLoop budget currentSize rest st1 (freed + c.size)
                    faults.tail).deleted)[0]? = some e := he
              rw [List.getElem?_cons_zero] at he0
              have hc1 : c.priority = 1 := by
                rw [← Option.some.inj he0] at hp
                exact hp
              rcases Nat.lt_or_ge (2 * (currentSize - freed)) (3 * budget) with hlt | hge
              · exact absurd ⟨hc1, hlt⟩ h3
              · exact hge
            | succ j =>
              have heS : (DeletedEntry.mk c.rid c.size c.priority c.score ::
                  (evictLoop budget currentSize rest st1 (freed + c.size)
                    faults.tail).deleted)[j + 1]? = some e := he
              rw [List.getElem?_cons_succ] at heS
              have hres := ih st1 (freed + c.size) faults.tail j e heS hp
              show 3 * budget ≤ 2 * (currentSize -
                (freed + (c.size + freedBefore
                  (evictLoop budget currentSize rest st1 (freed + c.size) faults.tail).deleted j)))
              rw [← Nat.add_assoc]
              exact hres

/-- Conclusion of claim C2, parameterised over one `optimize`
invocation with budget `B = max_size.getD (100 MiB)`: (1) inside the
eviction loop a priority-1 candidate is skipped — not deleted, the loop
moving on to the remaining candidates with nothing changed — whenever
the deficit ratio `(current_size - freed) / B` is below 1.5 (as integers,
`2 * (current_size - freed) < 3 * B`) at the moment it is considered;
(2) every priority-1 entry in the returned deletion report was deleted
at a moment with deficit ratio at least 1.5; (3) hence when the initial
total size is below `1.5 * B`, optimize deletes no priority-1
resource at all. -/
def C2Concl (st : State) (max_size : Option Nat) (now : Nat)
    (faults : List Bool) : Prop :=
  (∀ (c : Cand) (rest : List Cand) (st' : State) (freed : Nat) (faults' : List Bool),
    ¬ (totalSize st - freed ≤ max_size.getD (100 * 1024 * 1024)) →
    c.priority = 1 →
    max_size.getD (100 * 1024 * 1024) ≠ 0 →
    2 * (totalSize st - freed) < 3 * max_size.getD (100 * 1024 * 1024) →
    evictLoop (max_size.getD (100 * 1024 * 1024)) (totalSize st) (c :: rest) st' freed faults'
      = evictLoop (max_size.getD (100 * 1024 * 1024)) (totalSize st) rest st' freed faults') ∧
  (∀ (i : Nat) (e : DeletedEntry),
    ((optimize_storage st max_size now faults).2.deleted_resources)[i]? = some e →
    e.priority = 1 →
    3 * max_size.getD (100 * 1024 * 1024) ≤
      2 * (totalSize st -
        freedBefore ((optimize_storage st max_size now faults).2.deleted_resources) i)) ∧
  (2 * totalSize st < 3 * max_size.getD (100 * 1024 * 1024) →
    ∀ d ∈ (optimize_storage st max_size now faults).2.deleted_resources, d.priority ≠ 1)

/-- Claim C2: priority-1 candidates are skipped while the deficit ratio
is below 1.5, and an optimize run starting below 1.5 times the budget
deletes no priority-1 resource. -/
theorem c2_priority1_protection (st : State) (max_size : Option Nat) (now : Nat)
    (faults : List Bool) : C2Concl st max_size now faults := by
  have h2 : ∀ (i : Nat) (e : DeletedEntry),
      ((optimize_storage st max_size now faults).2.deleted_resources)[i]? = some e →
      e.priority = 1 →
      3 * max_size.getD (100 * 1024 * 1024) ≤
        2 * (totalSize st -
          freedBefore ((optimize_storage st max_size now faults).2.deleted_resources) i) := by
    simp only [optimize_storage]
    by_cases hle : totalSize st ≤ max_size.getD (100 * 1024 * 1024)
    · rw [if_pos hle]
      intro i e he
      exact absurd he (by simp)
    · rw [if_neg hle]
      by_cases hok : (evictLoop (max_size.getD (100 * 1024 * 1024)) (totalSize st)
          (sortedCandidates now st) st 0 faults).ok = true
      · rw [if_pos hok]
        intro i e he hp
        have hkey := evictLoop_priority1_ratio (max_size.getD (100 * 1024 * 1024))
          (totalSize st) (sortedCandidates now st) st 0 faults i e he hp
        rw [Nat.zero_add] at hkey
        exact hkey
      · rw [if_neg hok]
        intro i e he
        exact absurd he (by simp)
  refine ⟨?_, h2, ?_⟩
  · intro c rest st' freed faults' h1 hp hb hlt
    rw [evictLoop, if_neg h1, if_neg (fun hh => hb hh.2), if_pos ⟨hp, hlt⟩]
  · intro hsz d hd hp1
    obtain ⟨i, hget⟩ := List.getElem?_of_mem hd
    have hle := h2 i d hget hp1
    have hub : 2 * (totalSize st -
        freedBefore ((optimize_storage st max_size now faults).2.deleted_resources) i)
        ≤ 2 * totalSize st :=
      Nat.mul_le_mul_left 2 (Nat.sub_le _ _)
    omega

theorem c2_witness :
    (evictLoop 10
        (totalSize (State.mk [("a", [0])] [("a", ResourceRecord.mk 20 "" "g" 1 0 (some 0) 0 1)] []))
        [Cand.mk "z" 0 5 1] emptyState 6 []
      = evictLoop 10
        (totalSize (State.mk [("a", [0])] [("a", ResourceRecord.mk 20 "" "g" 1 0 (some 0) 0 1)] []))
        [] emptyState 6 []) ∧
    (3 * 10 ≤ 2 *
      (totalSize (State.mk [("a", [0])] [("a", ResourceRecord.mk 20 "" "g" 1 0 (some 0) 0 1)] []) -
        freedBefore ((optimize_storage
          (State.mk [("a", [0])] [("a", ResourceRecord.mk 20 "" "g" 1 0 (some 0) 0 1)] [])
          (some 10) 5 []).2.deleted_resources) 0)) ∧
    (DeletedEntry.mk "x" 60 4 100).priority ≠ 1 :=
  ⟨(c2_priority1_protection
      (State.mk [("a", [0])] [("a", ResourceRecord.mk 20 "" "g" 1 0 (some 0) 0 1)] [])
      (some 10) 5 []).1
      (Cand.mk "z" 0 5 1) [] emptyState 6 [] (by decide) rfl (by decide) (by decide),
   (c2_priority1_protection
      (State.mk [("a", [0])] [("a", ResourceRecord.mk 20 "" "g" 1 0 (some 0) 0 1)] [])
      (some 10) 5 []).2.1 0 (DeletedEntry.mk "a" 20 1 400) (by decide) (by decide),
   (c2_priority1_protection
      (State.mk [("x", [0]), ("y", [0])]
        [("x", ResourceRecord.mk 60 "" "g" 4 0 (some 0) 0 1),
         ("y", ResourceRecord.mk 60 "" "g" 4 0 (some 0) 0 1)] [])
      (some 100) 0 []).2.2 (by decide) (DeletedEntry.mk "x" 60 4 100) (by decide)⟩

/-- Claim C9, counterexample to the claim as stated, in three parts.
Part 1 (filters): called with the empty-string category and a zero
`max_size` on a ledger holding one record of size 1 and category "x",
the claimed behavior (filter by exact category match and by
`size ≤ 0`) returns nothing, but `list_resources` returns the record —
Python's truthiness test skips both filters.  Part 2 (negative page):
at `page = -1` the claimed positions lie outside the sequence, so the
claim demands an empty result, but Python's negative slice indices
resolve from the end and return a non-empty middle slice.  Part 3
(negative per_page): at `per_page = -1` the claimed position range
`[0, -1)` is empty, but Python's `resources[0:-1]` drops only the last
element. -/
theorem c9_list_filter_counterexample :
    (list_resources
        (State.mk [("a", [0])] [("a", ResourceRecord.mk 1 "" "x" 3 0 (some 1) 0 1)] [])
        (some "") (some 0) 1 50
      ≠ listSpecClaim
        (State.mk [("a", [0])] [("a", ResourceRecord.mk 1 "" "x" 3 0 (some 1) 0 1)] [])
        (some "") (some 0) 1 50) ∧
    (list_resources
        (State.mk [("a", [0]), ("b", [0])]
          [("a", ResourceRecord.mk 1 "" "g" 3 0 (some 2) 0 1),
           ("b", ResourceRecord.mk 1 "" "g" 3 0 (some 1) 0 1)] [])
        none none (-1) 1
      ≠ listSpecClaim
        (State.mk [("a", [0]), ("b", [0])]
          [("a", ResourceRecord.mk 1 "" "g" 3 0 (some 2) 0 1),
           ("b", ResourceRecord.mk 1 "" "g" 3 0 (some 1) 0 1)] [])
        none none (-1) 1) ∧
    (list_resources
        (State.mk [("a", [0]), ("b", [0])]
          [("a", ResourceRecord.mk 1 "" "g" 3 0 (some 2) 0 1),
           ("b", ResourceRecord.mk 1 "" "g" 3 0 (some 1) 0 1)] [])
        none none 1 (-1)
      ≠ listSpecClaim
        (State.mk [("a", [0]), ("b", [0])]
          [("a", ResourceRecord.mk 1 "" "g" 3 0 (some 2) 0 1),
           ("b", ResourceRecord.mk 1 "" "g" 3 0 (some 1) 0 1)] [])
        none none 1 (-1)) :=
  ⟨by decide, by decide, by decide⟩

/-- For non-negative `page` and `per_page`, Python's slice
`[start_idx : start_idx + per_page]` coincides with the positions-based
slice `[(page-1)*per_page, page*per_page)` of the claim: at `page = 0`
both are empty (Python resolves `[-per_page : 0]` to nothing), and for
`page ≥ 1` both indices are non-negative, where `take`/`drop` clamp
exactly as Python does. -/
theorem pySlice_eq_spec {α : Type} (l : List α) (page per_page : Int)
    (hp : 0 ≤ page) (hpp : 0 ≤ per_page) :
    pySlice l ((page - 1) * per_page) ((page - 1) * per_page + per_page)
      = (l.take (page * per_page).toNat).drop (((page - 1) * per_page)).toNat := by
  have hb : (page - 1) * per_page + per_page = page * per_page := by ring
  rw [hb]
  rcases hp.lt_or_eq with h1 | h0
  · have hs0 : 0 ≤ (page - 1) * per_page := mul_nonneg (by omega) hpp
    have he0 : 0 ≤ page * per_page := mul_nonneg hp hpp
    simp only [pySlice]
    rw [if_neg (not_lt.mpr hs0), if_neg (not_lt.mpr he0)]
  · rw [← h0]
    have ha : ((0 : Int) - 1) * per_page = -per_page := by ring
    have hb2 : (0 : Int) * per_page = 0 := by ring
    rw [ha, hb2]
    simp [pySlice]

/-- Claim C9 (amended): for `page ≥ 0` and `per_page ≥ 0`, `list`
returns exactly the records matching the category exactly (when a
nonempty category is given) and having size at most `max_size` (when a
nonzero `max_size` is given), ordered by `last_accessed` descending
with unset/epoch timestamps last, restricted to positions
`[(page-1)*per_page, page*per_page)`; out-of-range pages — `page = 0`
and pages past the end of the filtered sequence included — yield the
empty sequence rather than an error.  (Negative `page` or `per_page`
reach Python's from-the-end slice indexing instead, per the
counterexample.) -/
theorem c9_list_matches_amended_spec (st : State) (category : Option String)
    (max_size : Option Nat) (page per_page : Int)
    (hp : 0 ≤ page) (hpp : 0 ≤ per_page) :
    list_resources st category max_size page per_page
      = listSpecAmended st category max_size page per_page ∧
    ((((st.resources.filter (fun p => keepsFilter category max_size p.2)).length : Int)
        ≤ (page - 1) * per_page) →
      list_resources st category max_size page per_page = []) := by
  have hfun : (fun p : String × ResourceRecord => keepsFilter category max_size p.2)
      = (fun p => specKeepsAmended category max_size p.2) := by
    funext p
    cases category with
    | none =>
      cases max_size with
      | none => rfl
      | some m => by_cases hm : m = 0 <;> simp [keepsFilter, specKeepsAmended, hm]
    | some c =>
      cases max_size with
      | none => by_cases hc : c = "" <;> simp [keepsFilter, specKeepsAmended, hc]
      | some m =>
        by_cases hc : c = "" <;> by_cases hm : m = 0 <;>
          simp [keepsFilter, specKeepsAmended, hc, hm]
  have heq : list_resources st category max_size page per_page
      = listSpecAmended st category max_size page per_page := by
    simp only [list_resources, listSpecAmended]
    rw [hfun]
    exact pySlice_eq_spec _ page per_page hp hpp
  refine ⟨heq, ?_⟩
  intro hlen
  rw [heq]
  simp only [listSpecAmended]
  apply List.drop_eq_nil_of_le
  have hlt : (List.take ((page * per_page)).toNat (List.insertionSort listDescRel
      ((st.resources.filter (fun p => specKeepsAmended category max_size p.2)).map
        mkInfo))).length
      ≤ (List.insertionSort listDescRel
      ((st.resources.filter (fun p => specKeepsAmended category max_size p.2)).map
        mkInfo)).length := by
    rw [List.length_take]
    exact min_le_right _ _
  have hsl : (List.insertionSort listDescRel
      ((st.resources.filter (fun p => specKeepsAmended category max_size p.2)).map
        mkInfo)).length
      = (st.resources.filter (fun p => keepsFilter category max_size p.2)).length := by
    rw [(List.perm_insertionSort _ _).length_eq, List.length_map, ← hfun]
  omega

theorem c9_witness :
    ((0 : Int) ≤ 2 ∧ (0 : Int) ≤ 50) ∧
    (list_resources
        (State.mk [("a", [0])] [("a", ResourceRecord.mk 1 "" "x" 3 0 (some 1) 0 1)] [])
        none none 2 50
      = listSpecAmended
        (State.mk [("a", [0])] [("a", ResourceRecord.mk 1 "" "x" 3 0 (some 1) 0 1)] [])
        none none 2 50) ∧
    ((((State.mk [("a", [0])] [("a", ResourceRecord.mk 1 "" "x" 3 0 (some 1) 0 1)]
        []).resources.filter (fun p => keepsFilter none none p.2)).length : Int)
      ≤ (2 - 1) * 50) ∧
    list_resources
        (State.mk [("a", [0])] [("a", ResourceRecord.mk 1 "" "x" 3 0 (some 1) 0 1)] [])
        none none 2 50 = [] :=
  ⟨⟨by decide, by decide⟩,
   (c9_list_matches_amended_spec
      (State.mk [("a", [0])] [("a", ResourceRecord.mk 1 "" "x" 3 0 (some 1) 0 1)] [])
      none none 2 50 (by decide) (by decide)).1,
   by decide,
   (c9_list_matches_amended_spec
      (State.mk [("a", [0])] [("a", ResourceRecord.mk 1 "" "x" 3 0 (some 1) 0 1)] [])
      none none 2 50 (by decide) (by decide)).2 (by decide)⟩

/-- Claim C10: a `max_size` of 0 is falsy in Python, so `list` applies
no size filter at all — the result is identical to calling `list` with
no `max_size`. -/
theorem c10_zero_max_size_no_filter (st : State) (category : Option String)
    (page per_page : Int) :
    list_resources st category (some 0) page per_page
      = list_resources st category none page per_page := by
  simp only [list_resources]
  rw [show (fun p : String × ResourceRecord => keepsFilter category (some 0) p.2)
      = (fun p => keepsFilter category none p.2) from funext fun p => rfl]

end VRAM
